import Mathlib

/-!
Shallow embedding of the resource-watch event distribution engine
(`core/watcher`: `event.go` and the watch-server code) and proofs of the
specification claims about it.

Modelling conventions:
* Go `map` types are modelled as association lists with Go map semantics
  (unique keys, lookup of a missing key yields the zero value via a default).
* `time.Now().UnixNano()` is an explicit `nowNano : Nat` parameter at every
  call site that reads the clock.
* The opaque `interface{}` payload is modelled by `Obj`: `prim` is an
  original payload value; `plainWrap` is the untagged anonymous struct
  `struct{Object interface{}; ResourceVersion string}` that `AddEvent`
  stores (the eviction type-assertion in `AddEvent` matches exactly this
  Go type); `jsonWrap` is the json-tagged wrapper built by
  `addResourceVersion`, a distinct Go type because struct tags differ.
* Errors built with `fmt.Errorf` are modelled by inductive error types,
  one constructor per distinct format string in the source.
-/

namespace MyWatcher

/-- EventType is a string in the source (`type EventType string`). -/
abbrev EventType := String

/-- Constant `Added` of `event.go`. -/
def Added : EventType := "ADDED"

/-- Constant `Modified` of `event.go`. -/
def Modified : EventType := "MODIFIED"

/-- Constant `Deleted` of `event.go`. -/
def Deleted : EventType := "DELETED"

/-- Constant `Error` of `event.go`. -/
def Error : EventType := "ERROR"

/-- Model of the dynamic `interface{}` payload values that flow through the
watcher: an original opaque payload (`prim`), the untagged wrapper struct that
`EventStore.AddEvent` stores into the log (`plainWrap`), and the json-tagged
wrapper struct built by `WatchServer.addResourceVersion` (`jsonWrap`).
`plainWrap` and `jsonWrap` are distinct Go types (their struct tags differ),
so they are distinct constructors. -/
inductive Obj where
  | prim (s : String) : Obj
  | plainWrap (object : Obj) (resourceVersion : String) : Obj
  | jsonWrap (object : Obj) (resourceVersion : String) : Obj
deriving DecidableEq

/-- Struct `Event` of `event.go`: `{Type EventType; Object interface{}; Timestamp time.Time}`,
with the timestamp modelled as nanoseconds. -/
structure Event where
  type : EventType
  object : Obj
  timestamp : Nat
deriving DecidableEq

/-- Struct `ResourceKey` of the watch-server code: five string components. -/
structure ResourceKey where
  group : String
  version : String
  resource : String
  namespace' : String
  name : String
deriving DecidableEq

/-- Association-list lookup modelling a Go map read (`m[k]` with `ok`). -/
def lookupA {α β : Type} [DecidableEq α] : List (α × β) → α → Option β
  | [], _ => none
  | (a, b) :: rest, k => if a = k then some b else lookupA rest k

/-- Go map read returning the zero value when the key is absent. -/
def lookupD {α β : Type} [DecidableEq α] (m : List (α × β)) (k : α) (d : β) : β :=
  (lookupA m k).getD d

/-- Association-list insert modelling a Go map write (`m[k] = v`): replaces an
existing binding, otherwise appends. -/
def insertA {α β : Type} [DecidableEq α] : List (α × β) → α → β → List (α × β)
  | [], k, v => [(k, v)]
  | (a, b) :: rest, k, v =>
      if a = k then (k, v) :: rest else (a, b) :: insertA rest k v

/-- Association-list erase modelling Go `delete(m, k)`. -/
def eraseA {α β : Type} [DecidableEq α] (m : List (α × β)) (k : α) : List (α × β) :=
  m.filter (fun p => p.1 ≠ k)

/-- Struct `EventStore` of `event.go`: per-key event log, per-key
`resourceVersion → index` map, and the size bound. -/
structure EventStore where
  events : List (ResourceKey × List Event)
  versions : List (ResourceKey × List (String × Nat))
  maxSize : Nat
deriving DecidableEq

/-- Constructor `NewEventStore` of `event.go`. -/
def NewEventStore (maxSize : Nat) : EventStore :=
  { events := [], versions := [], maxSize := maxSize }

/-- The version string `fmt.Sprintf("%d-%d", time.Now().UnixNano(), len(s.events[key]))`
built in `AddEvent`. -/
def mkVersion (nowNano : Nat) (len : Nat) : String :=
  toString nowNano ++ "-" ++ toString len

/-- The eviction step in `AddEvent` on a full log: inspects the oldest entry;
when its object is the untagged wrapper struct (which it always is for entries
stored by `AddEvent`), the index entry of its resource version is deleted;
the oldest entry is dropped from the log either way. -/
def evictOldest (versions : List (String × Nat)) :
    List Event → List (String × Nat) × List Event
  | [] => (versions, [])
  | oldest :: rest =>
    match oldest.object with
    | Obj.plainWrap _ rv => (eraseA versions rv, rest)
    | _ => (versions, rest)

/-- Method `EventStore.AddEvent` of `event.go`: computes the version string from the
clock and the current log length, evicts the oldest entry when the log is at
capacity, stores the event with its object wrapped in the untagged version
struct, and records the new version's index. -/
def AddEvent (s : EventStore) (key : ResourceKey) (nowNano : Nat) (event : Event) :
    EventStore × String :=
  let cur := lookupD s.events key []
  let resourceVersion := mkVersion nowNano cur.length
  let curVers := lookupD s.versions key []
  let pruned := if s.maxSize ≤ cur.length then evictOldest curVers cur else (curVers, cur)
  let stored : Event := { event with object := Obj.plainWrap event.object resourceVersion }
  let newEvents := pruned.2 ++ [stored]
  let newVers := insertA pruned.1 resourceVersion (newEvents.length - 1)
  ({ s with events := insertA s.events key newEvents,
            versions := insertA s.versions key newVers },
   resourceVersion)

/-- Errors of `EventStore.GetEventsAfter`, one constructor per `fmt.Errorf`
site in `event.go`. `noEventsFor` is the spec's `NoSuchResource`;
`versionNotFound` is the spec's `VersionNotFound`. -/
inductive StoreErr where
  | noEventsFor (key : ResourceKey)
  | noVersionsFor (key : ResourceKey)
  | versionNotFound (resourceVersion : String)
deriving DecidableEq

/-- Method `EventStore.GetEventsAfter` of `event.go`: resolves the version via the
index and returns the suffix of the log strictly after the indexed position
(`events[startIndex+1:]`), the empty list when `startIndex >= len(events)-1`. -/
def GetEventsAfter (s : EventStore) (key : ResourceKey) (resourceVersion : String) :
    Except StoreErr (List Event) :=
  match lookupA s.events key with
  | none => Except.error (StoreErr.noEventsFor key)
  | some events =>
    match lookupA s.versions key with
    | none => Except.error (StoreErr.noVersionsFor key)
    | some versions =>
      match lookupA versions resourceVersion with
      | none => Except.error (StoreErr.versionNotFound resourceVersion)
      | some startIndex =>
        if events.length - 1 ≤ startIndex then Except.ok []
        else Except.ok (events.drop (startIndex + 1))

theorem lookupA_insertA_self {α β : Type} [DecidableEq α]
    (m : List (α × β)) (k : α) (v : β) :
    lookupA (insertA m k v) k = some v := by
  induction m with
  | nil => simp [insertA, lookupA]
  | cons p rest ih =>
    obtain ⟨a, b⟩ := p
    by_cases h : a = k
    · simp [insertA, h, lookupA]
    · simp [insertA, h, lookupA, ih]

theorem lookupA_insertA_ne {α β : Type} [DecidableEq α]
    (m : List (α × β)) (k k' : α) (v : β) (h : k ≠ k') :
    lookupA (insertA m k v) k' = lookupA m k' := by
  induction m with
  | nil => simp [insertA, lookupA, h]
  | cons p rest ih =>
    obtain ⟨a, b⟩ := p
    by_cases ha : a = k
    · subst ha
      simp [insertA, lookupA, h]
    · simp [insertA, ha, lookupA, ih]

theorem lookupD_insertA_self {α β : Type} [DecidableEq α]
    (m : List (α × β)) (k : α) (v d : β) :
    lookupD (insertA m k v) k d = v := by
  simp [lookupD, lookupA_insertA_self]

theorem lookupA_eraseA_self {α β : Type} [DecidableEq α]
    (m : List (α × β)) (k : α) :
    lookupA (eraseA m k) k = none := by
  induction m with
  | nil => rfl
  | cons p rest ih =>
    obtain ⟨a, b⟩ := p
    by_cases h : a = k
    · simp [eraseA, h, List.filter] at ih ⊢
      exact ih
    · simp [eraseA, List.filter, h, lookupA] at ih ⊢
      exact ih

theorem lookupA_map_value {α β γ : Type} [DecidableEq α]
    (m : List (α × β)) (f : β → γ) (k : α) :
    lookupA (m.map (fun p => (p.1, f p.2))) k = (lookupA m k).map f := by
  induction m with
  | nil => rfl
  | cons p rest ih =>
    obtain ⟨a, b⟩ := p
    by_cases h : a = k
    · simp [lookupA, h]
    · simp [lookupA, h, ih]

theorem evictOldest_snd (versions : List (String × Nat)) (l : List Event) :
    (evictOldest versions l).2 = l.tail := by
  cases l with
  | nil => rfl
  | cons oldest rest =>
    obtain ⟨t, o, ts⟩ := oldest
    cases o <;> rfl

/-- Appending preserves the configured capacity. -/
theorem AddEvent_maxSize (s : EventStore) (key : ResourceKey) (nowNano : Nat)
    (event : Event) : (AddEvent s key nowNano event).1.maxSize = s.maxSize := rfl

/-- The event log produced by one `AddEvent` call: the previous log for the
key, with its head dropped when the log was at capacity, followed by the new
entry stored with its object wrapped in the untagged version struct. -/
theorem AddEvent_log (s : EventStore) (key : ResourceKey) (nowNano : Nat)
    (event : Event) :
    lookupD (AddEvent s key nowNano event).1.events key [] =
      (if s.maxSize ≤ (lookupD s.events key []).length
        then (lookupD s.events key []).tail
        else lookupD s.events key []) ++
      [{ event with object :=
          Obj.plainWrap event.object (mkVersion nowNano (lookupD s.events key []).length) }] := by
  unfold AddEvent
  simp only [lookupD_insertA_self]
  split
  · rw [evictOldest_snd]
  · rfl

/-- Iterated appends to one key's log, each with its own clock reading. -/
def runAppends (s : EventStore) (key : ResourceKey) (xs : List (Nat × Event)) :
    EventStore :=
  xs.foldl (fun acc p => (AddEvent acc key p.1 p.2).1) s

theorem runAppends_append (s : EventStore) (key : ResourceKey)
    (xs : List (Nat × Event)) (x : Nat × Event) :
    runAppends s key (xs ++ [x]) = (AddEvent (runAppends s key xs) key x.1 x.2).1 := by
  simp [runAppends, List.foldl_append]

theorem runAppends_maxSize (s : EventStore) (key : ResourceKey)
    (xs : List (Nat × Event)) : (runAppends s key xs).maxSize = s.maxSize := by
  induction xs generalizing s with
  | nil => rfl
  | cons x xs ih => simp [runAppends, List.foldl_cons] at ih ⊢; rw [ih, AddEvent_maxSize]

/-- Removes the version wrapper that `AddEvent` puts around a stored event's
object, recovering the event as it was passed in. -/
def stripVersion (e : Event) : Event :=
  match e.object with
  | Obj.plainWrap o _ => { e with object := o }
  | _ => e

theorem stripVersion_stored (e : Event) (rv : String) :
    stripVersion { e with object := Obj.plainWrap e.object rv } = e := rfl

/-- C3: after any sequence of appends to one key's log with capacity `C ≥ 1`,
the log holds exactly `min k C` entries (`k` the number of appends), and they
are precisely the most recently appended events, in arrival order (the stored
entries, with the version wrapper stripped, are the last `min k C` inputs). -/
theorem log_bounded_fifo (C : Nat) (key : ResourceKey) (xs : List (Nat × Event))
    (hC : 1 ≤ C) :
    (lookupD (runAppends (NewEventStore C) key xs).events key []).length =
      min xs.length C ∧
    (lookupD (runAppends (NewEventStore C) key xs).events key []).map stripVersion =
      (xs.map Prod.snd).drop (xs.length - C) := by
  induction xs using List.reverseRecOn with
  | nil => simp [runAppends, NewEventStore, lookupD, lookupA]
  | append_singleton xs x ih =>
    obtain ⟨ihlen, ihmap⟩ := ih
    rw [runAppends_append]
    have hmax : (runAppends (NewEventStore C) key xs).maxSize = C := by
      rw [runAppends_maxSize]
      rfl
    rw [AddEvent_log, hmax]
    set evs := lookupD (runAppends (NewEventStore C) key xs).events key [] with hevs
    by_cases hfull : C ≤ evs.length
    · -- log at capacity: the head is evicted before the append
      have hlen : evs.length = C := by
        have : min xs.length C ≤ C := Nat.min_le_right _ _
        omega
      have hkC : C ≤ xs.length := by
        rw [hlen] at ihlen
        rcases Nat.le_total xs.length C with h | h
        · have := Nat.min_eq_left h
          omega
        · exact h
      rw [if_pos hfull]
      constructor
      · simp only [List.length_append, List.length_map, List.length_tail,
          List.length_singleton, hlen]
        omega
      · rw [List.map_append, List.map_tail, ihmap]
        have h1 : stripVersion { x.2 with
              object := Obj.plainWrap x.2.object (mkVersion x.1 evs.length) } = x.2 :=
          stripVersion_stored x.2 _
        rw [List.map_singleton, h1, List.tail_drop]
        have h2 : (xs.map Prod.snd ++ [x.2]).drop ((xs ++ [x]).length - C) =
            (xs.map Prod.snd).drop ((xs ++ [x]).length - C) ++ [x.2] := by
          apply List.drop_append_of_le_length
          simp only [List.length_map, List.length_append, List.length_singleton]
          omega
        rw [List.map_append, List.map_singleton, h2]
        congr 1
        congr 1
        simp only [List.length_append, List.length_singleton]
        omega
    · -- log below capacity: plain append
      have hxs : xs.length < C := by
        rw [ihlen] at hfull
        rcases Nat.le_total xs.length C with h | h
        · rw [Nat.min_eq_left h] at hfull
          omega
        · rw [Nat.min_eq_right h] at hfull
          omega
      rw [if_neg hfull]
      constructor
      · simp only [List.length_append, List.length_singleton, ihlen,
          List.length_append]
        have : min xs.length C = xs.length := Nat.min_eq_left (Nat.le_of_lt hxs)
        rw [this]
        have : min (xs.length + 1) C = xs.length + 1 := Nat.min_eq_left hxs
        simp only [List.length_singleton, this]
      · rw [List.map_append, ihmap]
        have h1 : stripVersion { x.2 with
              object := Obj.plainWrap x.2.object (mkVersion x.1 evs.length) } = x.2 :=
          stripVersion_stored x.2 _
        rw [List.map_singleton, h1]
        have h2 : xs.length - C = 0 := by omega
        have h3 : (xs ++ [x]).length - C = 0 := by
          simp only [List.length_append, List.length_singleton]
          omega
        rw [h2, h3, List.drop_zero, List.drop_zero, List.map_append,
          List.map_singleton]

/-- Collision-free case of eviction cleanup: when `AddEvent` evicts the
oldest entry from a full log and the freshly generated version string differs
from the evicted entry's version `rv` (hypothesis `hne` - which the code does
not itself guarantee, see the same-nanosecond collision theorems), the index
entry for `rv` is deleted and a subsequent `GetEventsAfter` for `rv` fails
with the version-not-found error. -/
theorem evicted_version_not_found (s : EventStore) (key : ResourceKey)
    (nowNano : Nat) (event e0 : Event) (o : Obj) (rv : String) (rest : List Event)
    (hlog : lookupD s.events key [] = e0 :: rest)
    (hwrap : e0.object = Obj.plainWrap o rv)
    (hfull : s.maxSize ≤ (e0 :: rest).length)
    (hne : mkVersion nowNano (e0 :: rest).length ≠ rv) :
    lookupA (lookupD (AddEvent s key nowNano event).1.versions key []) rv = none ∧
    GetEventsAfter (AddEvent s key nowNano event).1 key rv =
      Except.error (StoreErr.versionNotFound rv) := by
  constructor
  · simp only [AddEvent, hlog, if_pos hfull, evictOldest, hwrap, lookupD_insertA_self,
      lookupA_insertA_ne _ _ _ _ hne, lookupA_eraseA_self]
  · simp only [GetEventsAfter, AddEvent, hlog, if_pos hfull, evictOldest, hwrap,
      lookupD_insertA_self, lookupA_insertA_self,
      lookupA_insertA_ne _ _ _ _ hne, lookupA_eraseA_self]

/-- A fixed concrete resource key used throughout the concrete runs. -/
def ck : ResourceKey :=
  { group := "core", version := "v1", resource := "file",
    namespace' := "default", name := "demo" }

/-- Concrete event used in the runs below. -/
def evA : Event := { type := Added, object := Obj.prim "a", timestamp := 1 }

/-- Concrete event used in the runs below. -/
def evB : Event := { type := Modified, object := Obj.prim "b", timestamp := 2 }

/-- Concrete event used in the runs below. -/
def evC : Event := { type := Deleted, object := Obj.prim "c", timestamp := 3 }

/-- A capacity-2 store after appending `evA`, `evB`, `evC` at nanoseconds
1, 2, 3: the third append evicts the entry for version `"1-0"`. -/
def store3 : EventStore :=
  (AddEvent (AddEvent (AddEvent (NewEventStore 2) ck 1 evA).1 ck 2 evB).1 ck 3 evC).1

/-- C1: after an eviction from a full log, the surviving entries shift one
position to the left but their version-index entries are not re-indexed, so
`GetEventsAfter` resumes from the wrong position. Concretely, in `store3` the
log is `[entry("2-1"), entry("3-2")]`, so the entries strictly after the entry
with version `"2-1"` are `[entry("3-2")]`, yet `GetEventsAfter` returns `[]`
because the stale index still maps `"2-1"` to position 1. -/
theorem getEventsAfter_stale_after_eviction :
    lookupD store3.events ck [] =
      [{ type := Modified, object := Obj.plainWrap (Obj.prim "b") "2-1", timestamp := 2 },
       { type := Deleted, object := Obj.plainWrap (Obj.prim "c") "3-2", timestamp := 3 }] ∧
    lookupA (lookupD store3.versions ck []) "2-1" = some 1 ∧
    GetEventsAfter store3 ck "2-1" = Except.ok [] := by
  exact ⟨rfl, rfl, rfl⟩

/-- A capacity-1 store holding one entry, appended at nanosecond 5. -/
def storeFull1 : EventStore :=
  (AddEvent (NewEventStore 1) ck 5 evA).1

/-- C2: on a full log the length read for the version suffix is the constant
capacity, so two appends within the same nanosecond (here both at nanosecond 9)
return the identical version string `"9-1"` - the version is not unique. -/
theorem addEvent_duplicate_version_same_nanosecond :
    (AddEvent storeFull1 ck 9 evB).2 = "9-1" ∧
    (AddEvent (AddEvent storeFull1 ck 9 evB).1 ck 9 evC).2 = "9-1" := by
  exact ⟨rfl, rfl⟩

/-- Witness for the bounded-FIFO theorem at capacity 2 with three appends. -/
theorem log_bounded_fifo_witness :
    1 ≤ 2 ∧
    ((lookupD (runAppends (NewEventStore 2) ck [(1, evA), (2, evB), (3, evC)]).events ck []).length =
      min [(1, evA), (2, evB), (3, evC)].length 2 ∧
    (lookupD (runAppends (NewEventStore 2) ck [(1, evA), (2, evB), (3, evC)]).events ck []).map stripVersion =
      ([(1, evA), (2, evB), (3, evC)].map Prod.snd).drop
        ([(1, evA), (2, evB), (3, evC)].length - 2)) :=
  ⟨by decide, log_bounded_fifo 2 ck [(1, evA), (2, evB), (3, evC)] (by decide)⟩

/-- Witness for the collision-free eviction lemma: the capacity-1 store holds
the entry with version `"5-0"`; an append at nanosecond 7 evicts it, after
which its index entry is gone and `GetEventsAfter` fails with
version-not-found. -/
theorem evicted_version_not_found_witness :
    lookupA (lookupD (AddEvent storeFull1 ck 7 evB).1.versions ck []) "5-0" = none ∧
    GetEventsAfter (AddEvent storeFull1 ck 7 evB).1 ck "5-0" =
      Except.error (StoreErr.versionNotFound "5-0") :=
  evicted_version_not_found storeFull1 ck 7 evB
    { type := Added, object := Obj.plainWrap (Obj.prim "a") "5-0", timestamp := 1 }
    (Obj.prim "a") "5-0" [] rfl rfl (by decide) (by decide)

/-- C4: the same-nanosecond version collision on a full log breaks the clean
failure for evicted versions. In the capacity-1 store, the append at
nanosecond 9 stores an entry with version `"9-1"`; a second append at
nanosecond 9 evicts that entry and deletes its index binding, but then reuses
the identical version string `"9-1"` for the new entry and recreates the
binding - so `GetEventsAfter` for the evicted version `"9-1"` resolves it in
the index and returns `ok []` instead of failing with version-not-found. -/
theorem evicted_version_found_after_collision :
    lookupD (AddEvent storeFull1 ck 9 evB).1.events ck [] =
      [{ type := Modified, object := Obj.plainWrap (Obj.prim "b") "9-1", timestamp := 2 }] ∧
    lookupD (AddEvent (AddEvent storeFull1 ck 9 evB).1 ck 9 evC).1.events ck [] =
      [{ type := Deleted, object := Obj.plainWrap (Obj.prim "c") "9-1", timestamp := 3 }] ∧
    lookupA (lookupD (AddEvent (AddEvent storeFull1 ck 9 evB).1 ck 9 evC).1.versions ck [])
        "9-1" = some 0 ∧
    GetEventsAfter (AddEvent (AddEvent storeFull1 ck 9 evB).1 ck 9 evC).1 ck "9-1" =
      Except.ok [] :=
  ⟨rfl, rfl, rfl, rfl⟩

deriving instance DecidableEq for Except

/-- Model of the `Watcher` interface as the dispatcher observes it: the result
of `List()` (a snapshot list or an error string) and the sequence of events
the channel returned by `Watch(ctx)` will yield. -/
structure Watcher where
  snapshot : Except String (List Obj)
  stream : List Event
deriving DecidableEq

/-- A buffered Go channel as seen by the sequential operations: its pending
buffer and its capacity. (Channels reachable from the server's client map are
open: `Unwatch` closes a channel only while removing it from the map, under
the same lock. The open/closed race with the unguarded population goroutines
is modelled separately below.) -/
structure Chan where
  buf : List Event
  cap : Nat
deriving DecidableEq

/-- The non-blocking send `select { case ch <- event: default: }` of the
fan-out loop, and equally the `select` offer with a 100ms timeout used by the
population goroutines when no receiver is draining the queue: the event is
enqueued when the buffer has room and dropped otherwise. -/
def trySend (c : Chan) (e : Event) : Chan :=
  if c.buf.length < c.cap then { c with buf := c.buf ++ [e] } else c

/-- A plain blocking send `ch <- event` on an open channel, which completes
once the buffer has room; used by the population goroutines for their single
error event (the channel is freshly created and empty there). -/
def sendBlocking (c : Chan) (e : Event) : Chan :=
  { c with buf := c.buf ++ [e] }

/-- Struct `WatchServer` of the watch-server code: observer registry, per-key client
channels keyed by client id, the id counter, and the event store. -/
structure WatchServer where
  watchers : List (ResourceKey × Watcher)
  clients : List (ResourceKey × List (Nat × Chan))
  nextClient : Nat
  eventStore : EventStore
deriving DecidableEq

/-- Constructor `NewWatchServer`: empty registry and a store bounded to 1000 events. -/
def NewWatchServer : WatchServer :=
  { watchers := [], clients := [], nextClient := 0, eventStore := NewEventStore 1000 }

/-- The error of `RegisterWatcher` (`fmt.Errorf("watcher already registered for %v", key)`). -/
inductive RegErr where
  | alreadyRegistered (key : ResourceKey)
deriving DecidableEq

/-- The error of `Watch` (`fmt.Errorf("no watcher registered for %v", key)`). -/
inductive WatchErr where
  | noWatcherFor (key : ResourceKey)
deriving DecidableEq

/-- Method `WatchServer.RegisterWatcher`: rejects a key that already has a watcher
before touching any state; otherwise stores the watcher, creates the key's
empty client map, and starts the ingest goroutine (whose per-event effect is
`ingestEvent` below). Returns the updated receiver state and the error. -/
def RegisterWatcher (s : WatchServer) (key : ResourceKey) (w : Watcher) :
    WatchServer × Option RegErr :=
  match lookupA s.watchers key with
  | some _ => (s, some (RegErr.alreadyRegistered key))
  | none =>
      ({ s with watchers := insertA s.watchers key w,
                clients := insertA s.clients key [] }, none)

/-- The goroutine that `Watch` spawns to populate a new subscription:
`sendHistoryEvents` when a resource version was supplied, `sendInitialState`
otherwise. -/
inductive PendTask where
  | history (key : ResourceKey) (resourceVersion : String) (clientID : Nat)
  | initial (key : ResourceKey) (w : Watcher) (clientID : Nat)
deriving DecidableEq

/-- Method `WatchServer.Watch`: fails when no watcher is registered for the key;
otherwise allocates the next client id, registers a fresh 100-capacity
channel under it, and spawns the population goroutine. Returns the updated
receiver state and, on success, the client id with the spawned task. -/
def Watch (s : WatchServer) (key : ResourceKey) (resourceVersion : String) :
    WatchServer × Except WatchErr (Nat × PendTask) :=
  match lookupA s.watchers key with
  | none => (s, Except.error (WatchErr.noWatcherFor key))
  | some w =>
    let clientID := s.nextClient + 1
    let eventCh : Chan := { buf := [], cap := 100 }
    let keyClients := lookupD s.clients key []
    let s' := { s with nextClient := clientID,
                       clients := insertA s.clients key (insertA keyClients clientID eventCh) }
    if resourceVersion ≠ "" then
      (s', Except.ok (clientID, PendTask.history key resourceVersion clientID))
    else
      (s', Except.ok (clientID, PendTask.initial key w clientID))

/-- Method `WatchServer.Unwatch`: when the client id is present under the key, its
channel is closed and the binding removed from the client map. -/
def Unwatch (s : WatchServer) (key : ResourceKey) (clientID : Nat) : WatchServer :=
  match lookupA s.clients key with
  | none => s
  | some keyClients =>
    match lookupA keyClients clientID with
    | none => s
    | some _ => { s with clients := insertA s.clients key (eraseA keyClients clientID) }

/-- Method `WatchServer.addResourceVersion`: wraps the object in the json-tagged
envelope `{object, resourceVersion}`. -/
def addResourceVersion (obj : Obj) (version : String) : Obj :=
  Obj.jsonWrap obj version

/-- The fan-out step of the ingest loop: offers the event to every subscriber
channel of the key with the non-blocking send, leaving each channel to its own
outcome. -/
def fanOut (subs : List (Nat × Chan)) (e : Event) : List (Nat × Chan) :=
  subs.map (fun p => (p.1, trySend p.2 e))

/-- One iteration of the ingest loop in `startWatching` for one observer
event: append it to the event store (obtaining a version), re-tag the
outbound copy of the event with the version envelope, and offer it to every
subscriber of the key with the non-blocking send. -/
def ingestEvent (s : WatchServer) (key : ResourceKey) (nowNano : Nat) (event : Event) :
    WatchServer :=
  let stored := AddEvent s.eventStore key nowNano event
  let delivered := { event with object := addResourceVersion event.object stored.2 }
  { s with eventStore := stored.1,
           clients := insertA s.clients key (fanOut (lookupD s.clients key []) delivered) }

/-- The `Event{Type: Error, Object: err.Error()}` value the population
goroutines push when their lookup fails (no timestamp is set). -/
def errorEvent (msg : String) : Event :=
  { type := Error, object := Obj.prim msg, timestamp := 0 }

/-- The `err.Error()` strings of the `fmt.Errorf` sites of `event.go`
(the `%v`-formatted key is abbreviated to its name component). -/
def errMsg : StoreErr → String
  | StoreErr.noEventsFor key => "no events for resource " ++ key.name
  | StoreErr.noVersionsFor key => "no versions for resource " ++ key.name
  | StoreErr.versionNotFound rv => "resourceVersion " ++ rv ++ " not found"

/-- Applies a channel operation to the queue a population goroutine holds.
In this sequential model the goroutine's channel is the one registered in the
client map (the unguarded race with a concurrent `Unwatch` is modelled
separately below). -/
def updateClient (s : WatchServer) (key : ResourceKey) (clientID : Nat)
    (f : Chan → Chan) : WatchServer :=
  match lookupA s.clients key with
  | none => s
  | some keyClients =>
    match lookupA keyClients clientID with
    | none => s
    | some c =>
        { s with clients := insertA s.clients key (insertA keyClients clientID (f c)) }

/-- Offers a list of events to a channel in order, each with the
timeout-guarded send. -/
def offerAll (c : Chan) (es : List Event) : Chan :=
  es.foldl trySend c

/-- Method `WatchServer.sendHistoryEvents`: replays the log after `resourceVersion`
into the subscriber's channel; on a lookup error it pushes the single error
event instead. -/
def sendHistoryEvents (s : WatchServer) (key : ResourceKey) (resourceVersion : String)
    (clientID : Nat) : WatchServer :=
  match GetEventsAfter s.eventStore key resourceVersion with
  | Except.error e => updateClient s key clientID
      (fun c => sendBlocking c (errorEvent (errMsg e)))
  | Except.ok events => updateClient s key clientID (fun c => offerAll c events)

/-- Method `WatchServer.sendInitialState`: lists the watcher's snapshot and, per
item, synthesizes an `Added` event, appends it to the store, and offers the
version-enveloped copy to the subscriber's channel; a `List()` failure pushes
the single error event instead. -/
def sendInitialState (s : WatchServer) (key : ResourceKey) (w : Watcher)
    (clientID : Nat) (nowNano : Nat) : WatchServer :=
  match w.snapshot with
  | Except.error msg => updateClient s key clientID
      (fun c => sendBlocking c (errorEvent msg))
  | Except.ok resources =>
    resources.foldl (fun acc obj =>
      let event : Event := { type := Added, object := obj, timestamp := nowNano }
      let stored := AddEvent acc.eventStore key nowNano event
      updateClient { acc with eventStore := stored.1 } key clientID
        (fun c => trySend c { event with object := addResourceVersion obj stored.2 })) s

/-- Runs the population goroutine spawned by `Watch`. -/
def runPendTask (s : WatchServer) (nowNano : Nat) : PendTask → WatchServer
  | PendTask.history key rv clientID => sendHistoryEvents s key rv clientID
  | PendTask.initial key w clientID => sendInitialState s key w clientID nowNano

/-- An operation on the watch server, for stating trace-level invariants. -/
inductive SOp where
  | register (key : ResourceKey) (w : Watcher)
  | watch (key : ResourceKey) (resourceVersion : String)
  | unwatch (key : ResourceKey) (clientID : Nat)
  | ingest (key : ResourceKey) (nowNano : Nat) (event : Event)
  | pend (nowNano : Nat) (task : PendTask)

/-- State effect of one server operation. -/
def applyOp (s : WatchServer) : SOp → WatchServer
  | SOp.register key w => (RegisterWatcher s key w).1
  | SOp.watch key rv => (Watch s key rv).1
  | SOp.unwatch key clientID => Unwatch s key clientID
  | SOp.ingest key nowNano event => ingestEvent s key nowNano event
  | SOp.pend nowNano task => runPendTask s nowNano task

/-- A sequence of server operations applied in order. -/
def runOps (s : WatchServer) (ops : List SOp) : WatchServer :=
  ops.foldl applyOp s

/-- A concrete watcher whose snapshot is empty. -/
def cw : Watcher := { snapshot := Except.ok [], stream := [] }

/-- A second, different concrete watcher. -/
def cw2 : Watcher := { snapshot := Except.error "observer down", stream := [] }

/-- C7: a second `RegisterWatcher` call for an already-registered key returns
the already-registered error and leaves the server state (watcher registry,
client sets, id counter, event store) completely unchanged; the originally
registered watcher stays in place, so its ingest goroutine keeps running. -/
theorem register_duplicate_rejected (s : WatchServer) (key : ResourceKey)
    (w0 w : Watcher) (hreg : lookupA s.watchers key = some w0) :
    RegisterWatcher s key w = (s, some (RegErr.alreadyRegistered key)) ∧
    lookupA (RegisterWatcher s key w).1.watchers key = some w0 := by
  unfold RegisterWatcher
  rw [hreg]
  exact ⟨rfl, hreg⟩

/-- The server after registering `cw` under `ck` on a fresh server. -/
def regServer : WatchServer := (RegisterWatcher NewWatchServer ck cw).1

/-- Witness for the duplicate-registration theorem. -/
theorem register_duplicate_rejected_witness :
    RegisterWatcher regServer ck cw2 = (regServer, some (RegErr.alreadyRegistered ck)) ∧
    lookupA (RegisterWatcher regServer ck cw2).1.watchers ck = some cw :=
  register_duplicate_rejected regServer ck cw cw2 rfl

theorem lookupA_fanOut (subs : List (Nat × Chan)) (e : Event) (clientID : Nat) :
    lookupA (fanOut subs e) clientID = (lookupA subs clientID).map (fun c => trySend c e) := by
  induction subs with
  | nil => rfl
  | cons p rest ih =>
    obtain ⟨a, b⟩ := p
    by_cases h : a = clientID
    · simp [fanOut, lookupA, h]
    · simp only [fanOut, List.map_cons, lookupA, if_neg h]
      simpa [fanOut] using ih

/-- Shared characterization of the ingest fan-out: a subscriber of the key
with channel `c` ends up with exactly `trySend c e'` where `e'` is the event
tagged with its freshly assigned version - its outcome depends only on its own
channel. -/
theorem ingest_clients_lookup (s : WatchServer) (key : ResourceKey) (nowNano : Nat)
    (event : Event) (clientID : Nat) (c : Chan)
    (hc : lookupA (lookupD s.clients key []) clientID = some c) :
    lookupA (lookupD (ingestEvent s key nowNano event).clients key []) clientID =
      some (trySend c { event with
        object := addResourceVersion event.object (AddEvent s.eventStore key nowNano event).2 }) := by
  simp only [ingestEvent, lookupD_insertA_self, lookupA_fanOut, hc]
  rfl

/-- C6: during fan-out of one ingested event, each subscriber of the key
receives the event exactly when its own queue has free capacity, and keeps its
queue unchanged (the event is dropped for it) when its queue is full; the
result for a subscriber is a total function of its own queue alone, so a full
queue never blocks the ingest loop nor affects any other subscriber. -/
theorem fanout_nonblocking_per_subscriber (s : WatchServer) (key : ResourceKey)
    (nowNano : Nat) (event : Event) (clientID : Nat) (c : Chan)
    (hc : lookupA (lookupD s.clients key []) clientID = some c) :
    lookupA (lookupD (ingestEvent s key nowNano event).clients key []) clientID =
      some (if c.buf.length < c.cap
        then { c with buf := c.buf ++ [{ event with
              object := addResourceVersion event.object (AddEvent s.eventStore key nowNano event).2 }] }
        else c) := by
  rw [ingest_clients_lookup s key nowNano event clientID c hc]
  rfl

/-- An event already sitting in the slow subscriber's full queue. -/
def fullEvent : Event := { type := Added, object := Obj.prim "old", timestamp := 0 }

/-- A server with two subscribers of `ck`: client 1 with room in its queue and
client 2 with a saturated queue (capacity 1, one pending event). -/
def twoSubServer : WatchServer :=
  { watchers := [(ck, cw)],
    clients := [(ck, [(1, { buf := [], cap := 1 }), (2, { buf := [fullEvent], cap := 1 })])],
    nextClient := 2, eventStore := NewEventStore 1000 }

/-- Witness for the fan-out theorem: the fast subscriber receives the
version-tagged event while the saturated subscriber's queue stays unchanged. -/
theorem fanout_nonblocking_per_subscriber_witness :
    lookupA (lookupD (ingestEvent twoSubServer ck 4 evA).clients ck []) 1 =
      some { buf := [{ type := Added, object := Obj.jsonWrap (Obj.prim "a") "4-0",
                       timestamp := 1 }], cap := 1 } ∧
    lookupA (lookupD (ingestEvent twoSubServer ck 4 evA).clients ck []) 2 =
      some { buf := [fullEvent], cap := 1 } :=
  ⟨(fanout_nonblocking_per_subscriber twoSubServer ck 4 evA 1
      { buf := [], cap := 1 } rfl).trans (by decide),
   (fanout_nonblocking_per_subscriber twoSubServer ck 4 evA 2
      { buf := [fullEvent], cap := 1 } rfl).trans (by decide)⟩

/-- A server with one subscriber (client 7) of `ck` with an empty queue. -/
def oneSubServer : WatchServer :=
  { watchers := [(ck, cw)],
    clients := [(ck, [(7, { buf := [], cap := 100 })])],
    nextClient := 7, eventStore := NewEventStore 1000 }

/-- A concrete raw payload event. -/
def evX : Event := { type := Added, object := Obj.prim "x", timestamp := 4 }

/-- C8 counterexample: the event delivered to a subscriber does not carry the
resource version as a sibling of the untouched payload - the payload field
itself is replaced by the synthetic envelope `{object, resourceVersion}`: the
delivered object is the envelope, which differs from the original payload. -/
theorem delivery_rewraps_payload :
    lookupA (lookupD (ingestEvent oneSubServer ck 4 evX).clients ck []) 7 =
      some { buf := [{ type := Added, object := Obj.jsonWrap (Obj.prim "x") "4-0",
                       timestamp := 4 }], cap := 100 } ∧
    Obj.jsonWrap (Obj.prim "x") "4-0" ≠ Obj.prim "x" :=
  ⟨rfl, by decide⟩

/-- C8 (amended): each delivered event keeps the original type and timestamp,
and carries the assigned resource version by replacing the object field with
the envelope `{object, resourceVersion}` in which the original payload sits
unchanged. -/
theorem delivered_version_envelope (s : WatchServer) (key : ResourceKey)
    (nowNano : Nat) (event : Event) (clientID : Nat) (c : Chan)
    (hc : lookupA (lookupD s.clients key []) clientID = some c)
    (hroom : c.buf.length < c.cap) :
    lookupA (lookupD (ingestEvent s key nowNano event).clients key []) clientID =
      some { c with buf := c.buf ++ [{ event with
        object := Obj.jsonWrap event.object (AddEvent s.eventStore key nowNano event).2 }] } := by
  rw [ingest_clients_lookup s key nowNano event clientID c hc]
  simp [trySend, hroom, addResourceVersion]

/-- Witness for the envelope theorem at a concrete subscriber with room. -/
theorem delivered_version_envelope_witness :
    (([] : List Event).length < 100) ∧
    lookupA (lookupD (ingestEvent oneSubServer ck 4 evX).clients ck []) 7 =
      some { buf := [{ type := Added, object := Obj.jsonWrap (Obj.prim "x") "4-0",
                       timestamp := 4 }], cap := 100 } :=
  ⟨by decide,
   (delivered_version_envelope oneSubServer ck 4 evX 7
      { buf := [], cap := 100 } rfl (by decide)).trans (by decide)⟩

/-- C5 counterexample: on a server where `ck` is registered but the given
resource version is unknown (the store is empty), `Watch` returns success -
the client id and the spawned replay task, with no error to the caller - even
though the claim says the call fails to the caller. -/
theorem stale_watch_returns_success :
    (Watch regServer ck "stale-1").2 =
      Except.ok (1, PendTask.history ck "stale-1" 1) := rfl

/-- C5 (amended): subscribing with a non-empty resource version that the
store cannot resolve returns success to the caller (population is
asynchronous, so the lookup failure is not raised at the call site), and the
population goroutine then delivers exactly one Error-typed event on the
subscriber's stream. -/
theorem stale_watch_single_error_event (s : WatchServer) (key : ResourceKey)
    (rv : String) (w : Watcher) (er : StoreErr)
    (hw : lookupA s.watchers key = some w)
    (hrv : rv ≠ "")
    (herr : GetEventsAfter s.eventStore key rv = Except.error er) :
    (Watch s key rv).2 =
      Except.ok (s.nextClient + 1, PendTask.history key rv (s.nextClient + 1)) ∧
    lookupA (lookupD (sendHistoryEvents (Watch s key rv).1 key rv
        (s.nextClient + 1)).clients key []) (s.nextClient + 1) =
      some { buf := [errorEvent (errMsg er)], cap := 100 } := by
  have hw2 : Watch s key rv =
      ({ s with
           nextClient := s.nextClient + 1,
           clients := insertA s.clients key
             (insertA (lookupD s.clients key []) (s.nextClient + 1)
               { buf := [], cap := 100 }) },
       Except.ok (s.nextClient + 1, PendTask.history key rv (s.nextClient + 1))) := by
    simp only [Watch, hw, if_pos hrv]
  rw [hw2]
  refine ⟨rfl, ?_⟩
  simp only [sendHistoryEvents, herr, updateClient, lookupA_insertA_self,
    lookupD_insertA_self, sendBlocking]
  rfl

/-- Witness for the stale-subscribe theorem: `regServer` has `ck` registered
and an empty store, so version `"stale-1"` cannot be resolved; the call
succeeds and the stream holds exactly the one Error event. -/
theorem stale_watch_single_error_event_witness :
    ("stale-1" ≠ "") ∧
    ((Watch regServer ck "stale-1").2 =
      Except.ok (1, PendTask.history ck "stale-1" 1) ∧
    lookupA (lookupD (sendHistoryEvents (Watch regServer ck "stale-1").1 ck "stale-1"
        1).clients ck []) 1 =
      some { buf := [errorEvent (errMsg (StoreErr.noEventsFor ck))], cap := 100 }) :=
  ⟨by decide,
   stale_watch_single_error_event regServer ck "stale-1" cw (StoreErr.noEventsFor ck)
     rfl (by decide) rfl⟩

theorem updateClient_nextClient (s : WatchServer) (key : ResourceKey)
    (clientID : Nat) (f : Chan → Chan) :
    (updateClient s key clientID f).nextClient = s.nextClient := by
  unfold updateClient
  split
  · rfl
  · split
    · rfl
    · rfl

theorem sendHistoryEvents_nextClient (s : WatchServer) (key : ResourceKey)
    (rv : String) (clientID : Nat) :
    (sendHistoryEvents s key rv clientID).nextClient = s.nextClient := by
  unfold sendHistoryEvents
  split <;> rw [updateClient_nextClient]

theorem foldl_nextClient {α : Type} (f : WatchServer → α → WatchServer)
    (hf : ∀ s2 a, (f s2 a).nextClient = s2.nextClient) (l : List α) (s : WatchServer) :
    (l.foldl f s).nextClient = s.nextClient := by
  induction l generalizing s with
  | nil => rfl
  | cons a l ih => rw [List.foldl_cons, ih, hf]

theorem sendInitialState_nextClient (s : WatchServer) (key : ResourceKey)
    (w : Watcher) (clientID : Nat) (nowNano : Nat) :
    (sendInitialState s key w clientID nowNano).nextClient = s.nextClient := by
  unfold sendInitialState
  split
  · rw [updateClient_nextClient]
  · exact foldl_nextClient _ (fun s2 o => by simp only [updateClient_nextClient]) _ s

theorem ingestEvent_nextClient (s : WatchServer) (key : ResourceKey)
    (nowNano : Nat) (event : Event) :
    (ingestEvent s key nowNano event).nextClient = s.nextClient := rfl

theorem runPendTask_nextClient (s : WatchServer) (nowNano : Nat) (task : PendTask) :
    (runPendTask s nowNano task).nextClient = s.nextClient := by
  cases task with
  | history key rv clientID => exact sendHistoryEvents_nextClient s key rv clientID
  | initial key w clientID => exact sendInitialState_nextClient s key w clientID nowNano

/-- The server state a registered `Watch` call leaves behind. -/
def watchSucc (s : WatchServer) (key : ResourceKey) : WatchServer :=
  { s with
      nextClient := s.nextClient + 1,
      clients := insertA s.clients key
        (insertA (lookupD s.clients key []) (s.nextClient + 1) { buf := [], cap := 100 }) }

theorem Watch_eq_of_unregistered (s : WatchServer) (key : ResourceKey) (rv : String)
    (hw : lookupA s.watchers key = none) :
    Watch s key rv = (s, Except.error (WatchErr.noWatcherFor key)) := by
  simp only [Watch, hw]

theorem Watch_eq_of_registered_ne (s : WatchServer) (key : ResourceKey) (rv : String)
    (w : Watcher) (hw : lookupA s.watchers key = some w) (hrv : rv ≠ "") :
    Watch s key rv = (watchSucc s key,
      Except.ok (s.nextClient + 1, PendTask.history key rv (s.nextClient + 1))) := by
  simp only [Watch, hw, if_pos hrv, watchSucc]

theorem Watch_eq_of_registered_empty (s : WatchServer) (key : ResourceKey) (rv : String)
    (w : Watcher) (hw : lookupA s.watchers key = some w) (hrv : ¬rv ≠ "") :
    Watch s key rv = (watchSucc s key,
      Except.ok (s.nextClient + 1, PendTask.initial key w (s.nextClient + 1))) := by
  simp only [Watch, hw, if_neg hrv, watchSucc]

/-- A successful `Watch` call hands out exactly the incremented counter and
stores it back. -/
theorem Watch_ok_nextClient (s : WatchServer) (key : ResourceKey) (rv : String)
    (clientID : Nat) (task : PendTask)
    (h : (Watch s key rv).2 = Except.ok (clientID, task)) :
    clientID = s.nextClient + 1 ∧
    (Watch s key rv).1.nextClient = s.nextClient + 1 := by
  cases hw : lookupA s.watchers key with
  | none =>
    rw [Watch_eq_of_unregistered s key rv hw] at h
    exact absurd h (by simp)
  | some w =>
    by_cases hrv : rv ≠ ""
    · rw [Watch_eq_of_registered_ne s key rv w hw hrv] at h ⊢
      simp only [Except.ok.injEq, Prod.mk.injEq] at h
      exact ⟨h.1.symm, rfl⟩
    · rw [Watch_eq_of_registered_empty s key rv w hw hrv] at h ⊢
      simp only [Except.ok.injEq, Prod.mk.injEq] at h
      exact ⟨h.1.symm, rfl⟩

theorem applyOp_nextClient_le (s : WatchServer) (op : SOp) :
    s.nextClient ≤ (applyOp s op).nextClient := by
  cases op with
  | register key w =>
    show s.nextClient ≤ (RegisterWatcher s key w).1.nextClient
    unfold RegisterWatcher
    split
    · exact Nat.le_refl _
    · exact Nat.le_refl _
  | watch key rv =>
    show s.nextClient ≤ (Watch s key rv).1.nextClient
    cases hw : lookupA s.watchers key with
    | none =>
      rw [Watch_eq_of_unregistered s key rv hw]
    | some w =>
      by_cases hrv : rv ≠ ""
      · rw [Watch_eq_of_registered_ne s key rv w hw hrv]
        exact Nat.le_succ _
      · rw [Watch_eq_of_registered_empty s key rv w hw hrv]
        exact Nat.le_succ _
  | unwatch key clientID =>
    show s.nextClient ≤ (Unwatch s key clientID).nextClient
    unfold Unwatch
    split
    · exact Nat.le_refl _
    · split
      · exact Nat.le_refl _
      · exact Nat.le_refl _
  | ingest key nowNano event =>
    show s.nextClient ≤ (ingestEvent s key nowNano event).nextClient
    rw [ingestEvent_nextClient]
  | pend nowNano task =>
    show s.nextClient ≤ (runPendTask s nowNano task).nextClient
    rw [runPendTask_nextClient]

theorem runOps_nextClient_le (s : WatchServer) (ops : List SOp) :
    s.nextClient ≤ (runOps s ops).nextClient := by
  induction ops generalizing s with
  | nil => exact Nat.le_refl _
  | cons op ops ih =>
    exact Nat.le_trans (applyOp_nextClient_le s op) (ih (applyOp s op))

/-- C10: across any sequence of server operations, a successful `Watch` call
returns a client handle strictly greater than the handle of every earlier
successful `Watch` call (on any key), so handles are globally unique for the
server's lifetime. -/
theorem watch_handles_strictly_increase (s0 : WatchServer) (ops1 ops2 : List SOp)
    (key1 key2 : ResourceKey) (rv1 rv2 : String) (id1 id2 : Nat) (t1 t2 : PendTask)
    (h1 : (Watch (runOps s0 ops1) key1 rv1).2 = Except.ok (id1, t1))
    (h2 : (Watch (runOps (Watch (runOps s0 ops1) key1 rv1).1 ops2) key2 rv2).2 =
      Except.ok (id2, t2)) :
    id1 < id2 := by
  obtain ⟨e1, f1⟩ := Watch_ok_nextClient _ _ _ _ _ h1
  obtain ⟨e2, _⟩ := Watch_ok_nextClient _ _ _ _ _ h2
  have hmono := runOps_nextClient_le (Watch (runOps s0 ops1) key1 rv1).1 ops2
  omega

/-- Witness for the handle-monotonicity theorem: two consecutive `Watch`
calls on a fresh server with `ck` registered return handles 1 and 2. -/
theorem watch_handles_strictly_increase_witness :
    (Watch (runOps NewWatchServer [SOp.register ck cw]) ck "").2 =
      Except.ok (1, PendTask.initial ck cw 1) ∧
    (Watch (runOps (Watch (runOps NewWatchServer [SOp.register ck cw]) ck "").1 []) ck "").2 =
      Except.ok (2, PendTask.initial ck cw 2) ∧
    1 < 2 :=
  ⟨rfl, rfl,
   watch_handles_strictly_increase NewWatchServer [SOp.register ck cw] [] ck ck "" ""
     1 2 (PendTask.initial ck cw 1) (PendTask.initial ck cw 2) rfl rfl⟩

/-- State of one subscriber channel shared between `Unwatch` and a population
goroutine, with Go channel semantics made explicit: pending buffer, capacity,
the closed flag, and whether a goroutine has panicked by sending on the
channel after it was closed. -/
structure ChanState where
  buf : List Event
  cap : Nat
  closed : Bool
  panicked : Bool
deriving DecidableEq

/-- The two effects racing on one subscriber channel: the `close(ch)` that
`Unwatch` performs under the server lock, and the channel send that
`sendInitialState`/`sendHistoryEvents` perform while holding no lock at all
(the fan-out sends of the ingest loop are not modelled here: they run under
the same read-write mutex as `Unwatch` and so cannot interleave with it). -/
inductive RaceAct where
  | unwatchClose
  | populationSend (e : Event)
deriving DecidableEq

/-- Go channel semantics of each action: `close` marks the channel closed; a
send on a closed channel panics, also when it is the send arm of a `select`
(the arm is immediately ready and panics when taken); otherwise the send
enqueues when the buffer has room and is dropped on timeout when it is full. -/
def raceStep (c : ChanState) : RaceAct → ChanState
  | RaceAct.unwatchClose => { c with closed := true }
  | RaceAct.populationSend e =>
    if c.panicked then c
    else if c.closed then { c with panicked := true }
    else if c.buf.length < c.cap then { c with buf := c.buf ++ [e] }
    else c

/-- One interleaving of the two goroutines' actions on the shared channel. -/
def raceRun (c : ChanState) (acts : List RaceAct) : ChanState :=
  acts.foldl raceStep c

/-- The channel `Watch` creates: empty 100-capacity buffer, open. -/
def freshChanState : ChanState :=
  { buf := [], cap := 100, closed := false, panicked := false }

/-- C9: the interleaving in which `Unwatch` closes the subscriber's channel
between a population goroutine's store lookup and its unguarded channel send
makes that send panic - the code is not safe against a concurrent `Unwatch`
during asynchronous snapshot/replay population. -/
theorem unwatch_population_race_panics :
    (raceRun freshChanState
      [RaceAct.unwatchClose,
       RaceAct.populationSend (errorEvent "resourceVersion stale-1 not found")]).panicked
      = true := rfl

end MyWatcher
